import Mathlib

/-!
Verification development for the slack-term synchronization/caching service
layer (src/service/ratelimit.go, src/service/slack.go).

The Go code is shallowly embedded: stateful methods become explicit
state-passing functions, machine integers become Int/Nat, wall-clock time
becomes an explicit interger parameter (nanoseconds/seconds do not matter,
only the arithmetic does), and process-terminating calls (log.Fatal, nil
dereference) become an Option result where none = "the process aborted".
-/

namespace SlackTerm

/-! ## Association-list model of Go maps

Go maps are modelled as insertion-ordered association lists with
update-in-place on an existing key.  Go map iteration order is unspecified;
wherever iteration order matters it is made explicit as a permutation
parameter.
-/

def alistGet {α : Type} (l : List (String × α)) (k : String) : Option α :=
  match l.find? (fun p => p.1 == k) with
  | none => none
  | some p => some p.2

def alistUpsert {α : Type} (l : List (String × α)) (k : String) (v : α) :
    List (String × α) :=
  if l.any (fun p => p.1 == k) then
    l.map (fun p => if p.1 == k then (k, v) else p)
  else l ++ [(k, v)]

/-! ## Rate limiter (src/service/ratelimit.go)

`RateLimiter.wait` embeds `(*RateLimiter).Wait`.  `now` is the value of
`time.Now()` on entry; a sleeping call wakes at `now + refillRate` (the model
idealizes `time.Sleep` as sleeping exactly the requested duration).  Go's
integer division of durations truncates toward zero, which is `Int.tdiv`.
-/

structure RateLimiter where
  tokens : Int
  maxTokens : Int
  refillRate : Int
  lastRefill : Int
deriving DecidableEq, Repr

def newRateLimiter (maxTokens : Int) (refillRate : Int) (now : Int) : RateLimiter :=
  { tokens := maxTokens, maxTokens := maxTokens, refillRate := refillRate, lastRefill := now }

/-- Refill step of Wait: add elapsed/refillRate tokens, capped at maxTokens,
advancing lastRefill only when tokens were actually added. -/
def RateLimiter.refill (r : RateLimiter) (now : Int) : RateLimiter :=
  let elapsed := now - r.lastRefill
  let tokensToAdd := elapsed.tdiv r.refillRate
  if 0 < tokensToAdd then
    if r.maxTokens < r.tokens + tokensToAdd then
      { r with tokens := r.maxTokens, lastRefill := now }
    else
      { r with tokens := r.tokens + tokensToAdd, lastRefill := now }
  else r

structure WaitResult where
  slept : Bool
  sleepDuration : Int
  state : RateLimiter
deriving DecidableEq, Repr

/-- One call of `(*RateLimiter).Wait` at wall-clock time `now`. -/
def RateLimiter.wait (r : RateLimiter) (now : Int) : WaitResult :=
  let r1 := r.refill now
  if r1.tokens ≤ 0 then
    let waitTime := r1.refillRate
    let wake := now + waitTime
    let r2 := { r1 with tokens := 1, lastRefill := wake }
    { slept := true, sleepDuration := waitTime,
      state := { r2 with tokens := r2.tokens - 1 } }
  else
    { slept := false, sleepDuration := 0,
      state := { r1 with tokens := r1.tokens - 1 } }

/-- `k` successive Wait calls, all at the same wall-clock time `now`. -/
def iterWait (r : RateLimiter) (now : Int) : Nat → RateLimiter
  | 0 => r
  | k + 1 => ((iterWait r now k).wait now).state

/-- A sequence of Wait calls at arbitrary wall-clock times. -/
def runWaits (r : RateLimiter) : List Int → RateLimiter
  | [] => r
  | t :: ts => runWaits ((r.wait t).state) ts

/-- The token-count range invariant of the bucket state. -/
def rlInv (r : RateLimiter) : Prop := 0 ≤ r.tokens ∧ r.tokens ≤ r.maxTokens

instance (r : RateLimiter) : Decidable (rlInv r) := by
  unfold rlInv; infer_instance

lemma tdiv_self_zero (rate : Int) : (0 : Int).tdiv rate = 0 := by
  unfold Int.tdiv
  cases rate <;> simp

lemma iterWait_fresh (n : Nat) (rate t0 : Int) :
    ∀ k, k ≤ n → iterWait (newRateLimiter n rate t0) t0 k =
      { tokens := (n : Int) - k, maxTokens := n, refillRate := rate, lastRefill := t0 } := by
  intro k
  induction k with
  | zero => intro _; simp [iterWait, newRateLimiter]
  | succ k ih =>
    intro hk
    have hk' : k ≤ n := Nat.le_of_succ_le hk
    have hlt : k < n := Nat.lt_of_succ_le hk
    rw [iterWait, ih hk']
    have hpos : (0 : Int) < (n : Int) - k := by
      have : (k : Int) < n := by exact_mod_cast hlt
      omega
    simp only [RateLimiter.wait, RateLimiter.refill]
    rw [show ((t0 - t0 : Int)) = 0 by ring, tdiv_self_zero]
    simp only [lt_irrefl, if_false]
    rw [if_neg (by omega : ¬ ((n : Int) - k ≤ 0))]
    simp only []
    congr 1
    push_cast
    ring

/-- C4: starting from a fresh limiter with `n` tokens, `n+1` Wait calls with
zero elapsed time succeed without sleeping for the first `n` calls; the
`(n+1)`-th sleeps exactly one refill interval, then sets the count to 1 and
resets the refill marker to the wake time before consuming, so it returns
with 0 tokens. -/
theorem rateLimiter_blocks_after_tokens_exhausted (n : Nat) (rate t0 : Int) :
    (∀ k, k < n → ((iterWait (newRateLimiter n rate t0) t0 k).wait t0).slept = false) ∧
    ((iterWait (newRateLimiter n rate t0) t0 n).wait t0).slept = true ∧
    ((iterWait (newRateLimiter n rate t0) t0 n).wait t0).sleepDuration = rate ∧
    ((iterWait (newRateLimiter n rate t0) t0 n).wait t0).state.tokens = 0 ∧
    ((iterWait (newRateLimiter n rate t0) t0 n).wait t0).state.lastRefill = t0 + rate := by
  refine ⟨?_, ?_⟩
  · intro k hk
    rw [iterWait_fresh n rate t0 k (Nat.le_of_lt hk)]
    have hpos : (0 : Int) < (n : Int) - k := by
      have : (k : Int) < n := by exact_mod_cast hk
      omega
    simp only [RateLimiter.wait, RateLimiter.refill]
    rw [show ((t0 - t0 : Int)) = 0 by ring, tdiv_self_zero]
    simp only [lt_irrefl, if_false]
    rw [if_neg (by omega : ¬ ((n : Int) - k ≤ 0))]
  · rw [iterWait_fresh n rate t0 n (Nat.le_refl n)]
    simp only [RateLimiter.wait, RateLimiter.refill]
    rw [show ((t0 - t0 : Int)) = 0 by ring, tdiv_self_zero]
    simp only [lt_irrefl, if_false]
    rw [if_pos (by omega : ((n : Int) - n ≤ 0))]
    refine ⟨rfl, rfl, by norm_num, rfl⟩

/-- Closed witness for C4 at n = 2, rate = 5, t0 = 0. -/
theorem rateLimiter_blocks_after_tokens_exhausted_witness :
    ((iterWait (newRateLimiter 2 5 0) 0 2).wait 0).slept = true :=
  (rateLimiter_blocks_after_tokens_exhausted 2 5 0).2.1

lemma rlInv_refill (r : RateLimiter) (now : Int) (h : rlInv r) :
    rlInv (r.refill now) ∧ r.tokens ≤ (r.refill now).tokens := by
  obtain ⟨h0, h1⟩ := h
  simp only [RateLimiter.refill, rlInv]
  split
  · split <;> constructor <;> simp <;> omega
  · exact ⟨⟨h0, h1⟩, le_refl _⟩

lemma rlInv_wait (r : RateLimiter) (now : Int) (h : rlInv r) :
    rlInv ((r.wait now).state) := by
  obtain ⟨⟨g0, g1⟩, _⟩ := rlInv_refill r now h
  simp only [RateLimiter.wait, rlInv]
  split <;> constructor <;> simp <;> omega

/-- C8: for every limiter whose state satisfies the range invariant (as the
fresh state does), any sequence of Wait calls at arbitrary wall-clock times
keeps the token count within [0, maxTokens]; moreover under the invariant the
refill step never removes tokens (the amount added is never negative: a
non-positive elapsed/refillRate quotient adds nothing). -/
theorem rateLimiter_tokens_in_range (n : Nat) (rate t0 : Int) (ts : List Int) :
    rlInv (newRateLimiter n rate t0) ∧
    rlInv (runWaits (newRateLimiter n rate t0) ts) ∧
    (∀ (s : RateLimiter), rlInv s → ∀ now, s.tokens ≤ (s.refill now).tokens) := by
  have hinit : rlInv (newRateLimiter n rate t0) := by
    constructor <;> simp [newRateLimiter]
  refine ⟨hinit, ?_, ?_⟩
  · have : ∀ (l : List Int) (r : RateLimiter), rlInv r → rlInv (runWaits r l) := by
      intro l
      induction l with
      | nil => intro r h; exact h
      | cons t ts ih => intro r h; exact ih _ (rlInv_wait r t h)
    exact this ts _ hinit
  · intro s hs now
    exact (rlInv_refill s now hs).2

/-- Closed witness for C8 at n = 1, rate = 3, t0 = 0 and two calls. -/
theorem rateLimiter_tokens_in_range_witness :
    rlInv (runWaits (newRateLimiter 1 3 0) [0, 0]) :=
  (rateLimiter_tokens_in_range 1 3 0 [0, 0]).2.1

/-! ## Identity cache (SlackService.GetUserName, src/service/slack.go 118-150,
UserCache Get/Set, src/service/slack.go 995-1022)

The in-process tier (`SlackService.UserCache`) and the thread cache are Go
maps, modelled as association lists.  The durable sqlite tier
(`SlackService.PersistentCache`) is a table of (user_id, username,
updated_at) rows; a nil `*UserCache` (failed initialization) is `none`.
The remote `Client.GetUserInfo` call is the oracle `remote : String →
Option UserInfo` (`none` = the call returned an error).  The
`RateLimiter.Wait()` call made before the remote lookup only delays and
cannot change any cache state, so it is not threaded through this function;
no claim about identity resolution depends on limiter state.
-/

structure SvcState where
  userCache : List (String × String)
  persistentCache : Option (List (String × String × Int))
  threadCache : List (String × String)
deriving DecidableEq, Repr

def st0 : SvcState := { userCache := [], persistentCache := some [], threadCache := [] }

structure UserInfo where
  id : String
  name : String
deriving DecidableEq, Repr

/-- The durable cache TTL: entries older than 7 days are treated as absent. -/
def cacheTTL : Int := 7 * 24 * 60 * 60

/-- (*UserCache).Get: select by user_id, expire after `cacheTTL`. -/
def persistentGet (table : List (String × String × Int)) (userID : String) (now : Int) :
    Option String :=
  match table.find? (fun e => e.1 == userID) with
  | none => none
  | some e => if cacheTTL < now - e.2.2 then none else some e.2.1

/-- (*UserCache).Set: INSERT OR REPLACE keyed by user_id with now as updated_at. -/
def persistentSet (table : List (String × String × Int)) (userID name : String) (now : Int) :
    List (String × String × Int) :=
  if table.any (fun e => e.1 == userID) then
    table.map (fun e => if e.1 == userID then (userID, name, now) else e)
  else table ++ [(userID, name, now)]

/-- SlackService.GetUserName.  Result is (name, err, new state) where `err`
is whether a non-nil error was returned. -/
def getUserName (remote : String → Option UserInfo) (now : Int) (st : SvcState)
    (userID : String) : String × Bool × SvcState :=
  match alistGet st.userCache userID with
  | some user => (user, false, st)
  | none =>
    match st.persistentCache.bind (fun t => persistentGet t userID now) with
    | some user => (user, false, { st with userCache := alistUpsert st.userCache userID user })
    | none =>
      match remote userID with
      | some u =>
        (u.name, false,
          { st with
            userCache := alistUpsert st.userCache u.id u.name,
            persistentCache := st.persistentCache.map (fun t => persistentSet t u.id u.name now) })
      | none =>
        let placeholderName := "unknown (" ++ userID ++ ")"
        (placeholderName, true, { st with userCache := alistUpsert st.userCache userID placeholderName })

/-- C5: when both cache tiers miss and the remote lookup fails, GetUserName
returns the placeholder "unknown (<id>)" together with the failure, writes
the placeholder to the in-process tier only, and leaves the durable cache
(and the thread cache) untouched. -/
theorem getUserName_failure_placeholder_memory_only
    (remote : String → Option UserInfo) (now : Int) (st : SvcState) (userID : String)
    (hmem : alistGet st.userCache userID = none)
    (hdur : st.persistentCache.bind (fun t => persistentGet t userID now) = none)
    (hrem : remote userID = none) :
    getUserName remote now st userID =
      ("unknown (" ++ userID ++ ")", true,
        { st with userCache := alistUpsert st.userCache userID ("unknown (" ++ userID ++ ")") }) := by
  unfold getUserName
  rw [hmem, hdur, hrem]

/-- Closed witness for C5: the spec scenario for identifier U999 with empty
caches and a failing remote lookup. -/
theorem getUserName_failure_placeholder_memory_only_witness :
    getUserName (fun _ => none) 0 st0 "U999" =
      ("unknown (U999)", true,
        { st0 with userCache := alistUpsert st0.userCache "U999" "unknown (U999)" }) :=
  getUserName_failure_placeholder_memory_only (fun _ => none) 0 st0 "U999" rfl rfl rfl

/-! ## Thread aliases (hashID, src/service/slack.go 940-950) -/

def base62Alphabet : List Char :=
  "abcdefghijklmnopqrstuvwxyzABCDEFGHIJKLMNOPQRSTUVWXYZ1234567890".data

def digit62 (k : Nat) : Char := base62Alphabet.getD k ' '

/-- The digit loop of hashID on the non-negative part of the input: while
input > 0, prepend alphabet[input % 62] and divide by 62. -/
def hashChars (n : Nat) : List Char :=
  if h : n = 0 then []
  else hashChars (n / 62) ++ [digit62 (n % 62)]
termination_by n
decreasing_by exact Nat.div_lt_self (Nat.pos_of_ne_zero h) (by decide)

/-- hashID: Go ints that are zero or negative never enter the loop and give "". -/
def hashID (input : Int) : String := ⟨hashChars input.toNat⟩

lemma hashChars_zero : hashChars 0 = [] := by unfold hashChars; simp

lemma hashChars_succ (n : Nat) (h : n ≠ 0) :
    hashChars n = hashChars (n / 62) ++ [digit62 (n % 62)] := by
  conv_lhs => unfold hashChars
  simp [h]

lemma hashChars_ne_nil (n : Nat) (h : n ≠ 0) : hashChars n ≠ [] := by
  rw [hashChars_succ n h]
  simp

lemma digit62_inj : ∀ i < 62, ∀ j < 62, digit62 i = digit62 j → i = j := by decide

lemma append_singleton_inj {α : Type} (l1 l2 : List α) (a b : α)
    (h : l1 ++ [a] = l2 ++ [b]) : l1 = l2 ∧ a = b := by
  have hrev := congrArg List.reverse h
  simp only [List.reverse_append, List.reverse_cons, List.reverse_nil, List.nil_append,
    List.singleton_append, List.cons.injEq] at hrev
  exact ⟨by simpa using congrArg List.reverse hrev.2, hrev.1⟩

lemma hashChars_inj (m : Nat) : ∀ n, hashChars m = hashChars n → m ≠ 0 → n ≠ 0 → m = n := by
  induction m using Nat.strong_induction_on with
  | _ m ih =>
    intro n h hm hn
    rw [hashChars_succ m hm, hashChars_succ n hn] at h
    obtain ⟨hpre, hdig⟩ := append_singleton_inj _ _ _ _ h
    have hmod : m % 62 = n % 62 :=
      digit62_inj (m % 62) (Nat.mod_lt m (by decide)) (n % 62) (Nat.mod_lt n (by decide)) hdig
    have hdiv : m / 62 = n / 62 := by
      by_cases hm2 : m / 62 = 0
      · by_cases hn2 : n / 62 = 0
        · rw [hm2, hn2]
        · exact absurd (by rw [← hpre, hm2, hashChars_zero]) (hashChars_ne_nil _ hn2)
      · by_cases hn2 : n / 62 = 0
        · exact absurd (by rw [hpre, hn2, hashChars_zero]) (hashChars_ne_nil _ hm2)
        · exact ih (m / 62) (Nat.div_lt_self (Nat.pos_of_ne_zero hm) (by decide)) _ hpre hm2 hn2
    calc m = 62 * (m / 62) + m % 62 := (Nat.div_add_mod m 62).symm
    _ = 62 * (n / 62) + n % 62 := by rw [hdiv, hmod]
    _ = n := Nat.div_add_mod n 62

/-- C6: thread alias generation is a pure function of the identifier — the
same input always yields the same alias — and is injective on the 62-ary
encodable identifiers (the positive ones; zero and negative inputs never
enter the digit loop): distinct positive identifiers get distinct aliases. -/
theorem hashID_deterministic_and_injective (i j : Int) (hi : 0 < i) (hj : 0 < j) :
    hashID i = hashID i ∧ (i ≠ j → hashID i ≠ hashID j) := by
  refine ⟨rfl, fun hne heq => hne ?_⟩
  have hchars : hashChars i.toNat = hashChars j.toNat := by
    have := congrArg String.data heq
    simpa [hashID] using this
  have hnat : i.toNat = j.toNat := by
    refine hashChars_inj i.toNat j.toNat hchars (by omega) (by omega)
  calc i = (i.toNat : Int) := (Int.toNat_of_nonneg (le_of_lt hi)).symm
  _ = (j.toNat : Int) := by rw [hnat]
  _ = j := Int.toNat_of_nonneg (le_of_lt hj)

/-- Closed witness for C6 at identifiers 100 and 101. -/
theorem hashID_deterministic_and_injective_witness :
    hashID 100 = hashID 100 ∧ ((100 : Int) ≠ 101 → hashID 100 ≠ hashID 101) :=
  hashID_deterministic_and_injective 100 101 (by decide) (by decide)

/-! ## Channel aggregation (src/service/slack.go 181-365)

`SlackChannel` models the fields of `slack.Channel` read by this layer;
`ChannelItem` models `components.ChannelItem` (the Style*/icon fields are
opaque theme strings copied verbatim from the config and are read by no
claim, so they are not modelled).
-/

structure SlackChannel where
  id : String
  name : String
  user : String
  topicValue : String
  isChannel : Bool
  isGroup : Bool
  isMpIM : Bool
  isIM : Bool
  isMember : Bool
  isOpen : Bool
  unreadCount : Nat
deriving DecidableEq, Repr

def channelTypeChannel : String := "channel"
def channelTypeGroup : String := "group"
def channelTypeIM : String := "im"
def channelTypeMpIM : String := "mpim"

structure ChannelItem where
  id : String
  name : String
  topic : String
  userID : String
  presence : String
  notification : Bool
  ctype : String
deriving DecidableEq, Repr

/-- SlackService.createChannelItem (src/service/slack.go 928-938); the
remaining ChannelItem fields keep their Go zero values. -/
def createChannelItem (chn : SlackChannel) : ChannelItem :=
  { id := chn.id, name := chn.name, topic := chn.topicValue, userID := chn.user,
    presence := "", notification := false, ctype := "" }

structure TempChan where
  channelItem : ChannelItem
  slackChannel : SlackChannel
deriving DecidableEq, Repr

/-- The four buckets of makeBuckets: 0 = channels, 1 = groups, 2 = mpim,
3 = im.  Each bucket is a Go map; modelled as an insertion-ordered
association list whose iteration order is supplied separately. -/
structure Buckets where
  b0 : List (String × TempChan)
  b1 : List (String × TempChan)
  b2 : List (String × TempChan)
  b3 : List (String × TempChan)
deriving DecidableEq, Repr

def makeBuckets : Buckets := { b0 := [], b1 := [], b2 := [], b3 := [] }

/-- SlackService.sortIntoBuckets (src/service/slack.go 244-322).  The Go
`return` statements become early exits of the if-chain; `chanItem` field
mutations before each insert are rebuilt per branch (each branch sets Type
and Notification before inserting, so this is the same function).  The IM
branch resolves the counterpart's name through GetUserName and drops the
conversation when that returns an error. -/
def sortIntoBuckets (remote : String → Option UserInfo) (now : Int) (st : SvcState)
    (buckets : Buckets) (chn : SlackChannel) (keepOnlyIsMember : Bool) : Buckets × SvcState :=
  let chanItem := createChannelItem chn
  if chn.isChannel && keepOnlyIsMember && !chn.isMember then (buckets, st) else
  let buckets :=
    if chn.isChannel then
      let ci := { chanItem with
                  ctype := channelTypeChannel,
                  notification := decide (0 < chn.unreadCount) }
      let tc : TempChan := { channelItem := ci, slackChannel := chn }
      { buckets with b0 := alistUpsert buckets.b0 chn.id tc }
    else buckets
  if chn.isGroup && keepOnlyIsMember && !chn.isMember then (buckets, st) else
  if chn.isGroup && chn.isMpIM && !chn.isOpen then (buckets, st) else
  let buckets :=
    if chn.isGroup then
      if chn.isMpIM then
        let ci := { chanItem with
                    ctype := channelTypeMpIM,
                    notification := decide (0 < chn.unreadCount) }
        let tc : TempChan := { channelItem := ci, slackChannel := chn }
        { buckets with b2 := alistUpsert buckets.b2 chn.id tc }
      else
        let ci := { chanItem with
                    ctype := channelTypeGroup,
                    notification := decide (0 < chn.unreadCount) }
        let tc : TempChan := { channelItem := ci, slackChannel := chn }
        { buckets with b1 := alistUpsert buckets.b1 chn.id tc }
    else buckets
  if !chn.isIM then (buckets, st) else
  let r := getUserName remote now st chn.user
  if r.2.1 then (buckets, r.2.2) else
  let ci := { chanItem with
              name := r.1,
              ctype := channelTypeIM,
              presence := "away",
              notification := decide (0 < chn.unreadCount) }
  let tc : TempChan := { channelItem := ci, slackChannel := chn }
  ({ buckets with b3 := alistUpsert buckets.b3 chn.user tc }, r.2.2)

/-- The bucket-filling loop of getSortedChannels. -/
def foldBuckets (remote : String → Option UserInfo) (now : Int) (st : SvcState)
    (slackChans : List SlackChannel) (keepOnlyIsMember : Bool) : Buckets × SvcState :=
  slackChans.foldl
    (fun p chn => sortIntoBuckets remote now p.2 p.1 chn keepOnlyIsMember)
    (makeBuckets, st)

/-- A run's iteration order over a bucket map: Go map iteration order is
unspecified, so a run is parameterized by a function that is required (where
it matters) to permute the bucket's entries. -/
def BucketIter : Type := List (String × TempChan) → List (String × TempChan)

/-- Go string `<` (bytewise lexicographic on UTF-8, which coincides with
codepoint-lexicographic order), on the underlying character lists. -/
def strLtChars : List Char → List Char → Bool
  | _, [] => false
  | [], _ :: _ => true
  | a :: as, b :: bs =>
    if a.toNat < b.toNat then true
    else if b.toNat < a.toNat then false
    else strLtChars as bs

def goStrLt (a b : String) : Bool := strLtChars a.data b.data

lemma strLtChars_asymm : ∀ a b, strLtChars a b = true → strLtChars b a = false := by
  intro a
  induction a with
  | nil =>
    intro b _
    cases b with
    | nil => rfl
    | cons y ys => rfl
  | cons x xs ih =>
    intro b h
    cases b with
    | nil => simp [strLtChars] at h
    | cons y ys =>
      by_cases h1 : x.toNat < y.toNat
      · simp [strLtChars, h1, show ¬ y.toNat < x.toNat by omega]
      · by_cases h2 : y.toNat < x.toNat
        · simp [strLtChars, h1, h2] at h
        · simp only [strLtChars, if_neg h1, if_neg h2] at h
          simp only [strLtChars, if_neg h1, if_neg h2]
          exact ih ys h

lemma strLtChars_nil_right : ∀ l, strLtChars l [] = false := by
  intro l
  cases l with
  | nil => rfl
  | cons x xs => rfl

lemma strLtChars_false_trans : ∀ a b c, strLtChars b a = false → strLtChars c b = false →
    strLtChars c a = false := by
  intro a
  induction a with
  | nil => intro b c _ _; exact strLtChars_nil_right c
  | cons x xs ih =>
    intro b c h1 h2
    cases b with
    | nil => simp [strLtChars] at h1
    | cons y ys =>
      cases c with
      | nil => simp [strLtChars] at h2
      | cons z zs =>
        by_cases hyx : y.toNat < x.toNat
        · simp [strLtChars, hyx] at h1
        · by_cases hzy : z.toNat < y.toNat
          · simp [strLtChars, hzy] at h2
          · have hzx : ¬ z.toNat < x.toNat := by omega
            simp only [strLtChars, if_neg hzx]
            by_cases hxz : x.toNat < z.toNat
            · simp [hxz]
            · simp only [if_neg hxz]
              have hxy : ¬ x.toNat < y.toNat := by omega
              have hyz : ¬ y.toNat < z.toNat := by omega
              simp only [strLtChars, if_neg hyx, if_neg hxy] at h1
              simp only [strLtChars, if_neg hzy, if_neg hyz] at h2
              exact ih ys zs h1 h2

lemma strLtChars_antisymm : ∀ a b, strLtChars b a = false → strLtChars a b = false → a = b := by
  intro a
  induction a with
  | nil =>
    intro b _ h2
    cases b with
    | nil => rfl
    | cons y ys => simp [strLtChars] at h2
  | cons x xs ih =>
    intro b h1 h2
    cases b with
    | nil => simp [strLtChars] at h1
    | cons y ys =>
      by_cases hyx : y.toNat < x.toNat
      · simp [strLtChars, hyx] at h1
      · by_cases hxy : x.toNat < y.toNat
        · simp [strLtChars, hxy] at h2
        · simp only [strLtChars, if_neg hyx, if_neg hxy] at h1 h2
          have hv : x.toNat = y.toNat := by omega
          have hx : x = y := Char.ext (UInt32.ext hv)
          rw [hx, ih ys h1 h2]

/-- The name order delivered by `sort.Slice` with less(i,j) =
`tcArr[i].channelItem.Name < tcArr[j].channelItem.Name`: a precedes b when
b's name is not less than a's. -/
def nameLE (a b : String) : Prop := goStrLt b a = false

instance : IsAntisymm String nameLE :=
  ⟨fun a b h1 h2 => by
    have : a.data = b.data := strLtChars_antisymm a.data b.data h1 h2
    calc a = ⟨a.data⟩ := rfl
    _ = ⟨b.data⟩ := by rw [this]
    _ = b := rfl⟩

def chanLE (a b : TempChan) : Prop := nameLE a.channelItem.name b.channelItem.name

instance : DecidableRel chanLE := fun a b =>
  inferInstanceAs (Decidable (_ = false))

instance : IsTotal TempChan chanLE :=
  ⟨fun a b => by
    by_cases h : goStrLt b.channelItem.name a.channelItem.name = false
    · exact Or.inl h
    · refine Or.inr (strLtChars_asymm _ _ ?_)
      simpa using h⟩

instance : IsTrans TempChan chanLE :=
  ⟨fun _ y _ h1 h2 => strLtChars_false_trans _ y.channelItem.name.data _ h1 h2⟩

/-- One bucket's contribution: collect the map's values in the run's
iteration order, then sort by display name (`sort.Slice` guarantees a
name-sorted result and nothing about ties; every sorted rearrangement is
reachable through some iteration order, and `insertionSort` of the iterated
list realizes exactly those). -/
def sortBucket (iter : BucketIter) (b : List (String × TempChan)) : List TempChan :=
  List.insertionSort chanLE ((iter b).map (fun p => p.2))

/-- SlackService.getSortedChannels (src/service/slack.go 325-365): fill the
buckets, then concatenate the per-bucket name-sorted entries in the fixed
key order 0, 1, 2, 3 (`sort.Ints` of the four map keys). -/
def getSortedChannels (remote : String → Option UserInfo) (now : Int) (st : SvcState)
    (slackChans : List SlackChannel) (keepOnlyIsMember : Bool) (iter : BucketIter) :
    (List SlackChannel × List ChannelItem) × SvcState :=
  let r := foldBuckets remote now st slackChans keepOnlyIsMember
  let tcs := sortBucket iter r.1.b0 ++ sortBucket iter r.1.b1 ++
             sortBucket iter r.1.b2 ++ sortBucket iter r.1.b3
  ((tcs.map (fun tc => tc.slackChannel), tcs.map (fun tc => tc.channelItem)), r.2)

/-- C9: a direct-message conversation whose counterpart's name resolution
returns an error is put in no bucket at all — the buckets are returned
unchanged (only the cache state advanced by the failed lookup), so the
conversation is silently omitted from the aggregated list instead of being
included under the placeholder name. -/
theorem sortIntoBuckets_im_resolution_failure_omitted
    (remote : String → Option UserInfo) (now : Int) (st : SvcState) (bk : Buckets)
    (chn : SlackChannel) (keepOnlyIsMember : Bool)
    (hch : chn.isChannel = false) (hgr : chn.isGroup = false) (him : chn.isIM = true)
    (herr : (getUserName remote now st chn.user).2.1 = true) :
    sortIntoBuckets remote now st bk chn keepOnlyIsMember =
      (bk, (getUserName remote now st chn.user).2.2) := by
  simp [sortIntoBuckets, hch, hgr, him, herr]

def exIMChan : SlackChannel :=
  { id := "D1", name := "", user := "U9", topicValue := "", isChannel := false,
    isGroup := false, isMpIM := false, isIM := true, isMember := false,
    isOpen := true, unreadCount := 0 }

/-- Closed witness for C9: an IM whose counterpart U9 misses both cache
tiers and fails remote lookup is dropped from all buckets. -/
theorem sortIntoBuckets_im_resolution_failure_omitted_witness :
    sortIntoBuckets (fun _ => none) 0 st0 makeBuckets exIMChan true =
      (makeBuckets, (getUserName (fun _ => none) 0 st0 exIMChan.user).2.2) :=
  sortIntoBuckets_im_resolution_failure_omitted (fun _ => none) 0 st0 makeBuckets
    exIMChan true rfl rfl rfl rfl

lemma sortBucket_sorted (iter : BucketIter) (b : List (String × TempChan)) :
    List.Sorted chanLE (sortBucket iter b) :=
  List.sorted_insertionSort chanLE _

lemma sortBucket_perm (iter : BucketIter) (h : ∀ l, (iter l).Perm l)
    (b : List (String × TempChan)) :
    (sortBucket iter b).Perm (b.map (fun p => p.2)) :=
  (List.perm_insertionSort _ _).trans ((h b).map _)

lemma sortBucket_names_eq (iter1 iter2 : BucketIter) (b : List (String × TempChan))
    (h1 : ∀ l, (iter1 l).Perm l) (h2 : ∀ l, (iter2 l).Perm l) :
    (sortBucket iter1 b).map (fun tc => tc.channelItem.name) =
      (sortBucket iter2 b).map (fun tc => tc.channelItem.name) := by
  have p12 : (sortBucket iter1 b).Perm (sortBucket iter2 b) :=
    (sortBucket_perm iter1 h1 b).trans (sortBucket_perm iter2 h2 b).symm
  have s1 : List.Sorted nameLE ((sortBucket iter1 b).map (fun tc => tc.channelItem.name)) :=
    List.Pairwise.map _ (fun a b hab => hab) (sortBucket_sorted iter1 b)
  have s2 : List.Sorted nameLE ((sortBucket iter2 b).map (fun tc => tc.channelItem.name)) :=
    List.Pairwise.map _ (fun a b hab => hab) (sortBucket_sorted iter2 b)
  exact List.eq_of_perm_of_sorted (p12.map _) s1 s2

/-- C3 (amended): aggregation always produces, inside each bucket, a list
sorted by display name (case-sensitive ascending), and the sequence of
display names of the final list — and the multiset of entries — does not
depend on the hash-map iteration order of a run; but the relative order of
entries with equal display names is whatever the iteration order plus the
unstable sort happen to give, not the original fetch order. -/
theorem getSortedChannels_sorted_and_name_deterministic
    (remote : String → Option UserInfo) (now : Int) (st : SvcState)
    (slackChans : List SlackChannel) (keepOnlyIsMember : Bool)
    (iter1 iter2 : BucketIter)
    (h1 : ∀ l, (iter1 l).Perm l) (h2 : ∀ l, (iter2 l).Perm l) :
    (((getSortedChannels remote now st slackChans keepOnlyIsMember iter1).1.2).map
        (fun c => c.name) =
      ((getSortedChannels remote now st slackChans keepOnlyIsMember iter2).1.2).map
        (fun c => c.name)) ∧
    (∀ b, List.Sorted chanLE (sortBucket iter1 b)) ∧
    ((getSortedChannels remote now st slackChans keepOnlyIsMember iter1).1.2).Perm
      ((getSortedChannels remote now st slackChans keepOnlyIsMember iter2).1.2) := by
  refine ⟨?_, fun b => sortBucket_sorted iter1 b, ?_⟩
  · simp only [getSortedChannels, List.map_append, List.map_map, Function.comp_def]
    rw [sortBucket_names_eq iter1 iter2 _ h1 h2, sortBucket_names_eq iter1 iter2 _ h1 h2,
      sortBucket_names_eq iter1 iter2 _ h1 h2, sortBucket_names_eq iter1 iter2 _ h1 h2]
  · simp only [getSortedChannels]
    refine List.Perm.map _ ?_
    have pb : ∀ b, (sortBucket iter1 b).Perm (sortBucket iter2 b) := fun b =>
      (sortBucket_perm iter1 h1 b).trans (sortBucket_perm iter2 h2 b).symm
    exact ((((pb _).append (pb _)).append (pb _)).append (pb _))

def exChanDupA : SlackChannel :=
  { id := "CA", name := "dup", user := "", topicValue := "", isChannel := true,
    isGroup := false, isMpIM := false, isIM := false, isMember := true,
    isOpen := true, unreadCount := 0 }

def exChanDupB : SlackChannel :=
  { id := "CB", name := "dup", user := "", topicValue := "", isChannel := true,
    isGroup := false, isMpIM := false, isIM := false, isMember := true,
    isOpen := true, unreadCount := 0 }

/-- C3 counterexample: two member channels with equal display name "dup" and
distinct ids.  Two runs over the same input whose bucket-map iteration
orders differ (identity vs reversal — both legal Go map iteration orders)
produce different output orderings, so aggregation as implemented is not
deterministic across runs and ties do not keep fetch order. -/
theorem getSortedChannels_tie_order_cex :
    ((getSortedChannels (fun _ => none) 0 st0 [exChanDupA, exChanDupB] true
        (fun l => l)).1.2) ≠
      ((getSortedChannels (fun _ => none) 0 st0 [exChanDupA, exChanDupB] true
        (fun l => l.reverse)).1.2) := by
  decide

/-- Closed witness for C3 (amended) at a one-channel input with identity
iteration orders. -/
theorem getSortedChannels_sorted_and_name_deterministic_witness :
    ((getSortedChannels (fun _ => none) 0 st0 [exChanDupA] true (fun l => l)).1.2).map
        (fun c => c.name) =
      ((getSortedChannels (fun _ => none) 0 st0 [exChanDupA] true (fun l => l)).1.2).map
        (fun c => c.name) :=
  (getSortedChannels_sorted_and_name_deterministic (fun _ => none) 0 st0 [exChanDupA] true
    (fun l => l) (fun l => l) (fun l => List.Perm.refl l) (fun l => List.Perm.refl l)).1

/-! ## Channel pagination (SlackService.GetChannels, src/service/slack.go 181-223)

The remote `Client.GetConversations` is modelled as a script of responses
consumed one per call: `some (channels, nextCursor)` for a successful page,
`none` for an error (an exhausted script also means the call failed).  The
trace records, in order, every rate-limiter acquisition and every page
request the function performs.  GetChannels performs no RateLimiter.Wait()
call at all; rate-limiter acquisitions would appear in the trace as
`ApiEvent.rlWait` (as they would for GetMessages or GetConversationsForUser,
which do call Wait before their requests).
-/

inductive ApiEvent where
  | rlWait : ApiEvent
  | fetchPage (convTypes : List String) (cursor : String) : ApiEvent
deriving DecidableEq, Repr

def ApiEvent.isAcquire : ApiEvent → Bool
  | .rlWait => true
  | .fetchPage _ _ => false

def convTypesFor (includePublic : Bool) : List String :=
  if includePublic then ["public_channel", "private_channel", "im", "mpim"]
  else ["private_channel", "im", "mpim"]

/-- The cursor loop of GetChannels: repeat while the cursor is non-empty. -/
def getConversationsLoop (types : List String)
    (responses : List (Option (List SlackChannel × String))) (cursor : String)
    (acc : List SlackChannel) : List ApiEvent × Option (List SlackChannel) :=
  if cursor = "" then ([], some acc)
  else
    match responses with
    | [] => ([ApiEvent.fetchPage types cursor], none)
    | resp :: rest =>
      match resp with
      | none => ([ApiEvent.fetchPage types cursor], none)
      | some (chans, nextCur) =>
        let r := getConversationsLoop types rest nextCur (acc ++ chans)
        (ApiEvent.fetchPage types cursor :: r.1, r.2)

/-- The pagination phase of SlackService.GetChannels: the initial request
(empty cursor) followed by the cursor loop; any page error aborts with no
result.  (The subsequent getSortedChannels phase performs no page fetches.) -/
def getChannelsPagination (includePublic : Bool)
    (responses : List (Option (List SlackChannel × String))) :
    List ApiEvent × Option (List SlackChannel) :=
  let types := convTypesFor includePublic
  match responses with
  | [] => ([ApiEvent.fetchPage types ""], none)
  | resp :: rest =>
    match resp with
    | none => ([ApiEvent.fetchPage types ""], none)
    | some (chans, initCur) =>
      let r := getConversationsLoop types rest initCur chans
      (ApiEvent.fetchPage types "" :: r.1, r.2)

/-- The claim's reading of "every page fetch is preceded by an acquisition":
scanning the trace, each fetch must come immediately after an acquisition
(the flag carries whether the previous event was an acquisition). -/
def fetchesGuarded : Bool → List ApiEvent → Bool
  | _, [] => true
  | _, ApiEvent.rlWait :: rest => fetchesGuarded true rest
  | prev, ApiEvent.fetchPage _ _ :: rest => prev && fetchesGuarded false rest

lemma getConversationsLoop_no_acquire (types : List String)
    (responses : List (Option (List SlackChannel × String))) :
    ∀ cursor acc, ((getConversationsLoop types responses cursor acc).1.countP
      ApiEvent.isAcquire) = 0 := by
  induction responses with
  | nil =>
    intro cursor acc
    unfold getConversationsLoop
    split
    · simp
    · simp [ApiEvent.isAcquire]
  | cons resp rest ih =>
    intro cursor acc
    unfold getConversationsLoop
    split
    · simp
    · match resp with
      | none => simp [ApiEvent.isAcquire]
      | some (chans, nextCur) =>
        simp only [List.countP_cons, ApiEvent.isAcquire]
        rw [ih nextCur (acc ++ chans)]
        simp

/-- C2 (amended): GetChannels acquires no rate-limiter token at all — its
trace contains zero acquisitions, whatever the response script — so in
particular no page fetch (initial or cursor-advancing) is preceded by one. -/
theorem getChannels_pages_never_rate_limited (includePublic : Bool)
    (responses : List (Option (List SlackChannel × String))) :
    ((getChannelsPagination includePublic responses).1.countP ApiEvent.isAcquire) = 0 := by
  unfold getChannelsPagination
  match responses with
  | [] => simp [ApiEvent.isAcquire]
  | none :: rest => simp [ApiEvent.isAcquire]
  | some (chans, initCur) :: rest =>
    simp only [List.countP_cons, ApiEvent.isAcquire]
    rw [getConversationsLoop_no_acquire]
    simp

/-- C2 counterexample: a successful single-page run (one conversation-list
request, empty next cursor).  Its page fetch is not preceded by any
rate-limiter acquisition, refuting the claim as stated. -/
theorem getChannels_page_fetch_unguarded_cex :
    fetchesGuarded false (getChannelsPagination true [some ([], "")]).1 = false := by
  decide

/-! ## Message/Thread builder (src/service/slack.go 527-950)

`SlackMsg` models the fields of `slack.Message`/`slack.Msg` read by this
layer; `Message` models `components.Message` (the Style*/FormatTime fields
are opaque theme strings read by no claim and are not modelled).
`message.SubMessage` is a `*Msg`; only the fields used downstream are kept
(a sub-message's own sub-message is never read by the code).
-/

structure AttachmentField where
  title : String
  value : String
deriving DecidableEq, Repr

structure Attachment where
  fields : List AttachmentField
  pretext : String
  text : String
  title : String
deriving DecidableEq, Repr

structure SlackFile where
  id : String
  title : String
  urlPrivate : String
deriving DecidableEq, Repr

structure SlackMsg where
  user : String
  botID : String
  timestamp : String
  threadTimestamp : String
  text : String
  subType : String
  attachments : List Attachment
  files : List SlackFile
deriving DecidableEq, Repr

/-- slack.MessageEvent is a Msg whose SubType/SubMessage fields drive the
dispatch; SubMessage is a nullable pointer. -/
structure MessageEvent where
  msg : SlackMsg
  subMessage : Option SlackMsg
deriving DecidableEq, Repr

/-- components.Message.  `messages` is the nested Messages map (Go map,
modelled as an association list); `time` is the Unix second of the parsed
timestamp. -/
inductive Message where
  | mk (id : String) (messages : List (String × Message)) (time : Int) (name : String)
      (content : String) (thread : String)

def Message.id : Message → String
  | .mk i _ _ _ _ _ => i

def Message.messages : Message → List (String × Message)
  | .mk _ m _ _ _ _ => m

def Message.time : Message → Int
  | .mk _ _ t _ _ _ => t

def Message.name : Message → String
  | .mk _ _ _ n _ _ => n

def Message.content : Message → String
  | .mk _ _ _ _ c _ => c

def Message.thread : Message → String
  | .mk _ _ _ _ _ th => th

/-- msg.Thread = s (the only post-construction mutation the code performs). -/
def Message.withThread : Message → String → Message
  | .mk i m t n c _, th => .mk i m t n c th

/-- The Go zero value components.Message{}. -/
def emptyMessage : Message := .mk "" [] 0 "" "" ""

def natOfDigits (l : List Char) : Nat :=
  l.foldl (fun a c => a * 10 + (c.toNat - 48)) 0

/-- int64(strconv.ParseFloat(ts, 64)) as used on Slack timestamps: the
integer part of a non-negative decimal literal (exact for values below 2^53,
which covers every Unix-second timestamp); any string that is not a plain
non-negative decimal literal fails to parse and yields 0, as the callers
substitute 0 on a parse error (line 628-631) or ignore it (line 680). -/
def tsIntPart (s : String) : Int :=
  let sp := s.data.span (fun c => c != '.')
  let intDigits := sp.1
  let isValid :=
    match sp.2 with
    | [] => !intDigits.isEmpty && intDigits.all Char.isDigit
    | _ :: frac =>
      intDigits.all Char.isDigit && frac.all Char.isDigit &&
        (!intDigits.isEmpty || !frac.isEmpty)
  if isValid then (natOfDigits intDigits : Int) else 0

/-- CreateMessageFromAttachments (src/service/slack.go 764-827): field
title/value pairs, then pretext, text and title when non-empty, as
content-only messages. -/
def createMessageFromAttachments (atts : List Attachment) : List Message :=
  (atts.map (fun att =>
    att.fields.map (fun field => Message.mk "" [] 0 "" (field.title ++ " " ++ field.value) "") ++
    (if att.pretext != "" then [Message.mk "" [] 0 "" att.pretext ""] else []) ++
    (if att.text != "" then [Message.mk "" [] 0 "" att.text ""] else []) ++
    (if att.title != "" then [Message.mk "" [] 0 "" att.title ""] else []))).flatten

/-- CreateMessageFromFiles (src/service/slack.go 831-849). -/
def createMessageFromFiles (files : List SlackFile) : List Message :=
  files.map (fun file => Message.mk "" [] 0 "" (file.title ++ " " ++ file.urlPrivate) "")

/-! ### Body transformation pipeline (parseMessage, src/service/slack.go 870-926)

The two regex scanners are embedded as explicit left-to-right scanners over
the character list, with Go regexp (RE2, ASCII `\w`) leftmost-match
semantics worked out per pattern; `fuel` only bounds the scan and is always
called with the input length, which suffices because every step consumes at
least one character (a fuel-exhausted scanner returns its input unchanged,
a case never reached from the wrappers).

The emoji table `config.EmojiCodemap` lives in the config package, which is
not under src/.  Modelled from the spec: a static lookup table from \`:name:\`
tokens to replacements, carried as the `emojiMap` parameter.  Likewise Go's
`html.UnescapeString` (standard library, outside this repository) is the
opaque `unescape` parameter: no claim depends on the entity table itself.
-/

def isWordChar (c : Char) : Bool := c.isAlphanum || c == '_'

/-- parseEmoji: replace each `:name:` token (leftmost, non-overlapping) via
the lookup table; unmapped tokens stay verbatim.  A match needs a colon, a
non-empty maximal `\w` run, and a closing colon right after it. -/
def parseEmojiAux (emojiMap : List (String × String)) : Nat → List Char → List Char
  | 0, l => l
  | _ + 1, [] => []
  | fuel + 1, c :: rest =>
    if c == ':' then
      match rest.span isWordChar with
      | (run, r1) =>
        match run, r1 with
        | w :: ws, ':' :: rest2 =>
          let tok : List Char := ':' :: ((w :: ws) ++ [':'])
          let rep :=
            match alistGet emojiMap (String.mk tok) with
            | some code => code.data
            | none => tok
          rep ++ parseEmojiAux emojiMap fuel rest2
        | _, _ => ':' :: parseEmojiAux emojiMap fuel rest
    else c :: parseEmojiAux emojiMap fuel rest

def parseEmoji (emojiMap : List (String × String)) (msg : String) : String :=
  String.mk (parseEmojiAux emojiMap msg.data.length msg.data)

/-- parseMentions: replace each `<@ID>` / `<@ID|hint>` mention (regex
`\<@(\w+\|*\w+)\>`: a `\w` run, an optional pipe run, a `\w` run, so a
pipe-free ID needs length ≥ 2) with "@" ++ the name resolved for the part
before the first pipe, threading the cache state left to right.  On a failed
match the scan resumes right after the opening angle bracket. -/
def parseMentionsAux (remote : String → Option UserInfo) (now : Int) :
    Nat → SvcState → List Char → List Char × SvcState
  | 0, st, l => (l, st)
  | _ + 1, st, [] => ([], st)
  | fuel + 1, st, '<' :: '@' :: rest2 =>
    match rest2.span isWordChar with
    | (a, r1) =>
      match a, r1 with
      | w :: ws, '>' :: r2 =>
        if 2 ≤ (w :: ws).length then
          let r := getUserName remote now st (String.mk (w :: ws))
          let o := parseMentionsAux remote now fuel r.2.2 r2
          ('@' :: r.1.data ++ o.1, o.2)
        else
          let o := parseMentionsAux remote now fuel st ('@' :: rest2)
          ('<' :: o.1, o.2)
      | w :: ws, '|' :: r1' =>
        match (('|' :: r1').span (fun x => x == '|')).2.span isWordChar with
        | (b, r3) =>
          match b, r3 with
          | _ :: _, '>' :: r4 =>
            let r := getUserName remote now st (String.mk (w :: ws))
            let o := parseMentionsAux remote now fuel r.2.2 r4
            ('@' :: r.1.data ++ o.1, o.2)
          | _, _ =>
            let o := parseMentionsAux remote now fuel st ('@' :: rest2)
            ('<' :: o.1, o.2)
      | _, _ =>
        let o := parseMentionsAux remote now fuel st ('@' :: rest2)
        ('<' :: o.1, o.2)
  | fuel + 1, st, c :: rest =>
    let o := parseMentionsAux remote now fuel st rest
    (c :: o.1, o.2)

def parseMentions (remote : String → Option UserInfo) (now : Int) (st : SvcState)
    (msg : String) : String × SvcState :=
  let r := parseMentionsAux remote now msg.data.length st msg.data
  (String.mk r.1, r.2)

/-- The environment of a message-building run: the remote user lookup, the
wall clock, the emoji option and table (config), the HTML unescaper
(stdlib), and the conversations.replies fetch.  `replies threadTs channelID`
returns every fetched reply page concatenated, or `none` when a page request
fails — on which the code calls log.Fatal (process aborts). -/
structure MsgEnv where
  remote : String → Option UserInfo
  now : Int
  cfgEmoji : Bool
  emojiMap : List (String × String)
  unescape : String → String
  replies : String → String → Option (List SlackMsg)

/-- parseMessage (src/service/slack.go 870-880): emoji substitution (only
when the Emoji config option is set), then mention substitution, then HTML
entity unescaping. -/
def parseMessage (env : MsgEnv) (st : SvcState) (msg : String) : String × SvcState :=
  let m1 := if env.cfgEmoji then parseEmoji env.emojiMap msg else msg
  let m2 := parseMentions env.remote env.now st m1
  (env.unescape m2.1, m2.2)

/-- The reply loop body of CreateMessageFromReplies (src/service/slack.go
739-757): skip the thread parent (timestamp equals thread timestamp), build
each remaining reply with `build` (the recursive CreateMessage), and mark it
with the thread separator.  `none` aborts the process. -/
def buildReplies (build : SvcState → SlackMsg → Option (Message × SvcState)) :
    SvcState → List SlackMsg → Option (List Message × SvcState)
  | st, [] => some ([], st)
  | st, reply :: rest =>
    if reply.threadTimestamp != "" && reply.threadTimestamp == reply.timestamp then
      buildReplies build st rest
    else
      match build st reply with
      | none => none
      | some (m, st') =>
        match buildReplies build st' rest with
        | none => none
        | some (ms, st'') => some (m.withThread "  " :: ms, st'')

/-- CreateMessageFromReplies (src/service/slack.go 706-760).  The cursor
pagination over GetConversationReplies is collapsed into the single oracle
call `env.replies`; an error on any page makes it `none`, on which the code
calls log.Fatal(err) (marked FIXME) — the process terminates, modelled as a
`none` result that propagates to the whole operation. -/
def createMessageFromReplies (env : MsgEnv)
    (build : SvcState → SlackMsg → Option (Message × SvcState)) (st : SvcState)
    (messageID channelID : String) : Option (List Message × SvcState) :=
  match env.replies messageID channelID with
  | none => none
  | some raw => buildReplies build st raw

/-- CreateMessage (src/service/slack.go 613-695).  `fuel` bounds the
thread-nesting depth of the recursion through reply fetching; replies never
satisfy the thread-parent test (the parent is filtered out), so any positive
fuel reproduces the Go behavior on its inputs.  Fuel exhaustion is `none`. -/
def createMessage (env : MsgEnv) : Nat → SvcState → SlackMsg → String →
    Option (Message × SvcState)
  | 0, _, _, _ => none
  | fuel + 1, st, message, channelID =>
    let r := getUserName env.remote env.now st message.user
    let name :=
      if r.2.1 && r.1 == "" then (if message.botID != "" then "unknown bot" else "unknown")
      else r.1
    let intTime := tsIntPart message.timestamp
    let pm := parseMessage env r.2.2 message.text
    let msgs1 := (createMessageFromAttachments message.attachments).enum.foldl
      (fun acc ia => alistUpsert acc (toString ia.1) ia.2) ([] : List (String × Message))
    let msgs2 := (createMessageFromFiles message.files).foldl
      (fun acc f => alistUpsert acc f.id f) msgs1
    if message.threadTimestamp != "" && message.threadTimestamp == message.timestamp then
      let threadID := hashID (tsIntPart message.threadTimestamp)
      let st3 := { pm.2 with
                   threadCache := alistUpsert pm.2.threadCache threadID message.threadTimestamp }
      match createMessageFromReplies env (fun st' m => createMessage env fuel st' m channelID)
          st3 message.threadTimestamp channelID with
      | none => none
      | some (replies, st4) =>
        let msgs3 := replies.foldl (fun acc rep => alistUpsert acc rep.id rep) msgs2
        some (Message.mk message.timestamp msgs3 intTime name pm.1 (threadID ++ " "), st4)
    else
      some (Message.mk message.timestamp msgs2 intTime name pm.1 "", pm.2)

/-- CreateMessageFromMessageEvent (src/service/slack.go 851-864). -/
def createMessageFromMessageEvent (env : MsgEnv) (fuel : Nat) (st : SvcState)
    (message : MessageEvent) (channelID : String) :
    Option ((Message × Option String) × SvcState) :=
  match message.msg.subType with
  | "message_changed" =>
    match message.subMessage with
    | none => none
    | some sub =>
      let m := { sub with text := sub.text ++ " (edited)" }
      (createMessage env fuel st m channelID).map (fun p => ((p.1, none), p.2))
  | "message_replied" => some ((emptyMessage, some "ignoring reply events"), st)
  | _ => (createMessage env fuel st message.msg channelID).map (fun p => ((p.1, none), p.2))

/-! ### C1: thread-reply fetch failure -/

def repliesFailEnv : MsgEnv :=
  { remote := fun _ => none, now := 0, cfgEmoji := false, emojiMap := [],
    unescape := fun s => s, replies := fun _ _ => none }

def repliesOkEnv : MsgEnv :=
  { remote := fun _ => none, now := 0, cfgEmoji := false, emojiMap := [],
    unescape := fun s => s, replies := fun _ _ => some [] }

def threadParentMsg : SlackMsg :=
  { user := "U1", botID := "", timestamp := "100.000000", threadTimestamp := "100.000000",
    text := "hello", subType := "", attachments := [], files := [] }

/-- C1 (code bug, src/service/slack.go 717 and 732): for a thread parent
whose conversations.replies fetch fails, CreateMessageFromReplies calls
log.Fatal(err) (marked FIXME), terminating the whole process — CreateMessage
yields nothing at all rather than the parent message, and the failure is
escalated to a process abort instead of being absorbed.  The same input with
a succeeding reply fetch does yield the parent message. -/
theorem createMessage_replies_failure_aborts_process :
    createMessage repliesFailEnv 1 st0 threadParentMsg "C0" = none ∧
    (createMessage repliesOkEnv 1 st0 threadParentMsg "C0").isSome = true :=
  ⟨rfl, rfl⟩

/-! ### C7: transformation pipeline -/

lemma parseEmojiAux_no_colon (emojiMap : List (String × String)) :
    ∀ (l : List Char) (fuel : Nat), (∀ c ∈ l, c ≠ ':') →
      parseEmojiAux emojiMap fuel l = l := by
  intro l
  induction l with
  | nil => intro fuel _; cases fuel <;> rfl
  | cons c rest ih =>
    intro fuel h
    cases fuel with
    | zero => rfl
    | succ fuel =>
      have hc : ¬ ((c == ':') = true) := by
        simp only [beq_iff_eq]
        exact h c (List.mem_cons_self c rest)
      simp only [parseEmojiAux, if_neg hc]
      rw [ih fuel (fun x hx => h x (List.mem_cons_of_mem c hx))]

lemma takeWhile_all_append (p : Char → Bool) :
    ∀ (a : List Char) (x : Char) (t : List Char), (∀ c ∈ a, p c = true) → p x = false →
      ((a ++ x :: t).takeWhile p) = a := by
  intro a
  induction a with
  | nil => intro x t _ hx; simp [List.takeWhile, hx]
  | cons c cs ih =>
    intro x t ha hx
    have hc : p c = true := ha c (List.mem_cons_self c cs)
    simp only [List.cons_append, List.takeWhile, hc]
    exact congrArg (c :: ·) (ih x t (fun y hy => ha y (List.mem_cons_of_mem c hy)) hx)

lemma dropWhile_all_append (p : Char → Bool) :
    ∀ (a : List Char) (x : Char) (t : List Char), (∀ c ∈ a, p c = true) → p x = false →
      ((a ++ x :: t).dropWhile p) = x :: t := by
  intro a
  induction a with
  | nil => intro x t _ hx; simp [List.dropWhile, hx]
  | cons c cs ih =>
    intro x t ha hx
    have hc : p c = true := ha c (List.mem_cons_self c cs)
    simp only [List.cons_append, List.dropWhile, hc]
    exact ih x t (fun y hy => ha y (List.mem_cons_of_mem c hy)) hx

lemma span_all_append (p : Char → Bool) (a : List Char) (x : Char) (t : List Char)
    (ha : ∀ c ∈ a, p c = true) (hx : p x = false) :
    ((a ++ x :: t).span p) = (a, x :: t) := by
  rw [List.span_eq_take_drop, takeWhile_all_append p a x t ha hx,
    dropWhile_all_append p a x t ha hx]

lemma parseMentionsAux_nil (remote : String → Option UserInfo) (now : Int)
    (fuel : Nat) (st : SvcState) : parseMentionsAux remote now fuel st [] = ([], st) := by
  cases fuel <;> rfl

lemma parseMentionsAux_single_mention (remote : String → Option UserInfo) (now : Int)
    (st : SvcState) (w : Char) (ws : List Char) (fuel : Nat) (hfuel : fuel ≠ 0)
    (hw : ∀ c ∈ w :: ws, isWordChar c = true) (hlen : 2 ≤ (w :: ws).length) :
    parseMentionsAux remote now fuel st ('<' :: '@' :: ((w :: ws) ++ ['>'])) =
      ('@' :: (getUserName remote now st (String.mk (w :: ws))).1.data,
        (getUserName remote now st (String.mk (w :: ws))).2.2) := by
  cases fuel with
  | zero => exact absurd rfl hfuel
  | succ fuel =>
    have hspan : (((w :: ws) ++ ['>']).span isWordChar) = (w :: ws, ['>']) :=
      span_all_append isWordChar (w :: ws) '>' [] hw (by decide)
    simp only [parseMentionsAux, hspan, if_pos hlen, parseMentionsAux_nil,
      List.append_nil]

/-- C7 (amended): mention substitution and HTML unescaping always run, in
that order, each exactly once; emoji substitution runs (first) only when the
Emoji config option is enabled.  Whatever display name mention substitution
inserts is never re-scanned by the emoji stage: for every emoji table,
config and resolver, a body that is a single mention becomes exactly the
unescape of "@" ++ the resolved name, even when that name is itself a mapped
token of the form colon-name-colon. -/
theorem parseMessage_mention_text_never_emoji_substituted (env : MsgEnv) (st : SvcState)
    (uid : String) (hw : ∀ c ∈ uid.data, isWordChar c = true)
    (hlen : 2 ≤ uid.data.length) :
    parseMessage env st ("<@" ++ uid ++ ">") =
      (env.unescape ("@" ++ (getUserName env.remote env.now st uid).1),
        (getUserName env.remote env.now st uid).2.2) ∧
    (∀ m, parseMessage { env with cfgEmoji := false } st m =
      (env.unescape (parseMentions env.remote env.now st m).1,
        (parseMentions env.remote env.now st m).2)) := by
  constructor
  · have hdata : ("<@" ++ uid ++ ">").data = '<' :: '@' :: (uid.data ++ ['>']) := by
      simp [String.data_append]
    obtain ⟨w, ws, hws⟩ : ∃ w ws, uid.data = w :: ws := by
      cases h : uid.data with
      | nil => rw [h] at hlen; simp at hlen
      | cons w ws => exact ⟨w, ws, rfl⟩
    have hnocolon : ∀ c ∈ ("<@" ++ uid ++ ">").data, c ≠ ':' := by
      rw [hdata]
      intro c hc hcol
      subst hcol
      simp only [List.mem_cons, List.mem_append, List.mem_singleton] at hc
      rcases hc with h | h | h | h
      · exact absurd h (by decide)
      · exact absurd h (by decide)
      · have hcw := hw _ h
        simp [isWordChar] at hcw
      · exact absurd h (by decide)
    have hemoji : parseEmoji env.emojiMap ("<@" ++ uid ++ ">") = ("<@" ++ uid ++ ">") := by
      unfold parseEmoji
      rw [parseEmojiAux_no_colon env.emojiMap _ _ hnocolon]
    have huid : uid = String.mk (w :: ws) := congrArg String.mk hws
    have hmen : parseMentions env.remote env.now st ("<@" ++ uid ++ ">") =
        ("@" ++ (getUserName env.remote env.now st uid).1,
          (getUserName env.remote env.now st uid).2.2) := by
      unfold parseMentions
      rw [hdata, hws]
      rw [parseMentionsAux_single_mention env.remote env.now st w ws _ (by simp)
        (by rw [← hws]; exact hw) (by rw [← hws]; exact hlen)]
      rw [← huid]
      have hat : ("@" ++ (getUserName env.remote env.now st uid).1) =
          String.mk ('@' :: (getUserName env.remote env.now st uid).1.data) := by
        cases h : (getUserName env.remote env.now st uid).1
        rfl
      rw [hat]
    have hm1 : (if env.cfgEmoji then parseEmoji env.emojiMap ("<@" ++ uid ++ ">")
        else ("<@" ++ uid ++ ">")) = ("<@" ++ uid ++ ">") := by
      cases hc : env.cfgEmoji
      · simp
      · simp [hemoji]
    simp only [parseMessage]
    rw [hm1, hmen]
  · intro m
    rfl

def c7envOff : MsgEnv :=
  { remote := fun _ => none, now := 0, cfgEmoji := false, emojiMap := [(":smile:", "SMILEY")],
    unescape := fun s => s, replies := fun _ _ => none }

/-- C7 counterexample: with the emoji option disabled, the pipeline applies
only two of the claimed three stages.  On the body ":smile:" (mapped by the
table) parseMessage leaves the token verbatim, while the claimed
always-three-stage pipeline substitutes it. -/
theorem parseMessage_emoji_stage_skipped_cex :
    (parseMessage c7envOff st0 ":smile:").1 = ":smile:" ∧
    c7envOff.unescape
      (parseMentions c7envOff.remote c7envOff.now st0
        (parseEmoji c7envOff.emojiMap ":smile:")).1 = "SMILEY" ∧
    (":smile:" : String) ≠ "SMILEY" := by
  refine ⟨rfl, rfl, by decide⟩

def c7envOn : MsgEnv :=
  { remote := fun u => some { id := u, name := ":smile:" }, now := 0, cfgEmoji := true,
    emojiMap := [(":smile:", "SMILEY")], unescape := fun s => s, replies := fun _ _ => none }

/-- Closed witness for C7 (amended): the resolver returns the mapped token
":smile:" as a display name; it is not substituted. -/
theorem parseMessage_mention_text_never_emoji_substituted_witness :
    parseMessage c7envOn st0 ("<@" ++ "U1" ++ ">") =
      (c7envOn.unescape ("@" ++ (getUserName c7envOn.remote c7envOn.now st0 "U1").1),
        (getUserName c7envOn.remote c7envOn.now st0 "U1").2.2) :=
  (parseMessage_mention_text_never_emoji_substituted c7envOn st0 "U1"
    (by decide) (by decide)).1

/-! ### C10: live-event dispatch -/

/-- C10: CreateMessageFromMessageEvent dispatches on the event subtype:
"message_replied" events are ignored with an error and the empty message;
"message_changed" events are built from the event's sub-message with the
literal suffix " (edited)" appended to its text; every other subtype is
built from the event's own message unchanged. -/
theorem createMessageFromMessageEvent_subtype_dispatch (env : MsgEnv) (fuel : Nat)
    (st : SvcState) (message : MessageEvent) (channelID : String) :
    (message.msg.subType = "message_replied" →
      createMessageFromMessageEvent env fuel st message channelID =
        some ((emptyMessage, some "ignoring reply events"), st)) ∧
    (∀ sub, message.msg.subType = "message_changed" → message.subMessage = some sub →
      createMessageFromMessageEvent env fuel st message channelID =
        (createMessage env fuel st { sub with text := sub.text ++ " (edited)" } channelID).map
          (fun p => ((p.1, none), p.2))) ∧
    (message.msg.subType ≠ "message_replied" → message.msg.subType ≠ "message_changed" →
      createMessageFromMessageEvent env fuel st message channelID =
        (createMessage env fuel st message.msg channelID).map
          (fun p => ((p.1, none), p.2))) := by
  refine ⟨?_, ?_, ?_⟩
  · intro h
    unfold createMessageFromMessageEvent
    rw [h]
    rfl
  · intro sub h hsub
    unfold createMessageFromMessageEvent
    rw [h, hsub]
    rfl
  · intro h1 h2
    unfold createMessageFromMessageEvent
    split
    · exact absurd (by assumption) h2
    · exact absurd (by assumption) h1
    · rfl

def repliedEvent : MessageEvent :=
  { msg := { user := "", botID := "", timestamp := "", threadTimestamp := "",
             text := "", subType := "message_replied", attachments := [], files := [] },
    subMessage := none }

def plainMsgEnv : MsgEnv :=
  { remote := fun _ => none, now := 0, cfgEmoji := false, emojiMap := [],
    unescape := fun s => s, replies := fun _ _ => none }

/-- Closed witness for C10 at a "message_replied" event. -/
theorem createMessageFromMessageEvent_subtype_dispatch_witness :
    createMessageFromMessageEvent plainMsgEnv 1 st0 repliedEvent "C0" =
      some ((emptyMessage, some "ignoring reply events"), st0) :=
  (createMessageFromMessageEvent_subtype_dispatch plainMsgEnv 1 st0 repliedEvent "C0").1 rfl

end SlackTerm
